import Mathlib

/-!
Shallow embedding of the grid-generation routine `create_vector_grid` of
`src/ddb_spatial_tools.py` (the GridBuilder core of the spec).

The Python source computes, from a bounding box (xmin, ymin, xmax, ymax),
a cell size `grid_size` and a CRS label:

    height = grid_size
    width = grid_size
    cols = list(np.arange(xmin, xmax + width, width))
    rows = list(np.arange(ymin, ymax + height, height))
    polygons = []
    for x in cols[:-1]:
        for y in rows[:-1]:
            polygons.append(Polygon([(x,y), (x+width, y),
                                     (x+width, y+height), (x, y+height)]))
    grid = gpd.GeoDataFrame({'geometry': polygons}); grid.set_crs(crs_code)

Numbers are modelled as rationals (exact arithmetic).  `np.arange(start,
stop, step)` returns the `max 0 ⌈(stop - start) / step⌉` values
`start + i * step`; with `step = 0` numpy raises `ZeroDivisionError`,
which the embedding surfaces as an `Except.error`.  The bounding-box
queries that the surrounding glue performs against the database are out
of scope (spec §6); the bounds are inputs here, as in the spec's
`build_grid(xmin, ymin, xmax, ymax, cell_size, crs_code)` signature.
`Rat.ceil` (a directly computable ceiling) is used in the definition and
proved equal to Mathlib's `⌈⌉` below.
-/

/-- The `i`-th value of a numpy arange: `start + i * step`. -/
def arangeElem (start step : ℚ) (i : ℕ) : ℚ := start + i * step

/-- Model of `np.arange(start, stop, step)` for nonzero `step`: the
`max 0 ⌈(stop - start) / step⌉` values `start, start + step, …`. -/
def arange (start stop step : ℚ) : List ℚ :=
  (List.range ((stop - start) / step).ceil.toNat).map (arangeElem start step)

/-- The square polygon emitted for a retained origin `(x, y)`:
`Polygon([(x,y), (x+w,y), (x+w,y+h), (x,y+h)])` with `w = h = s`
(source line 73). -/
def squarePoly (x y s : ℚ) : List (ℚ × ℚ) :=
  [(x, y), (x + s, y), (x + s, y + s), (x, y + s)]

/-- The returned grid: the ordered polygon list of the GeoDataFrame plus
the CRS label attached by `set_crs`. -/
structure Grid where
  polygons : List (List (ℚ × ℚ))
  crs : String
deriving DecidableEq, Repr

/-- Shallow embedding of the grid-construction core of
`create_vector_grid` (src/ddb_spatial_tools.py lines 64-78).  `width`
and `height` are both set to `grid_size`; the cells are built from all
but the last column origin and all but the last row origin
(`cols[:-1]`, `rows[:-1]`), columns as the outer loop.  A zero
`grid_size` makes `np.arange` raise `ZeroDivisionError`. -/
def create_vector_grid (xmin ymin xmax ymax grid_size : ℚ) (crs_code : String) :
    Except String Grid :=
  if grid_size = 0 then
    .error "ZeroDivisionError: division by zero"
  else
    let width := grid_size
    let height := grid_size
    let cols := arange xmin (xmax + width) width
    let rows := arange ymin (ymax + height) height
    let polygons := cols.dropLast.flatMap (fun x =>
      rows.dropLast.map (fun y => squarePoly x y width))
    .ok { polygons := polygons, crs := crs_code }

/-- Minimum of a list of rationals (meaningful for nonempty lists). -/
def listMin (l : List ℚ) : ℚ := l.foldr min l.headI

/-- Maximum of a list of rationals (meaningful for nonempty lists). -/
def listMax (l : List ℚ) : ℚ := l.foldr max l.headI

/-- The closed axis-aligned rectangle spanned by a polygon's vertices. -/
def rectOf (p : List (ℚ × ℚ)) : Set (ℚ × ℚ) :=
  {z | listMin (p.map Prod.fst) ≤ z.1 ∧ z.1 ≤ listMax (p.map Prod.fst) ∧
       listMin (p.map Prod.snd) ≤ z.2 ∧ z.2 ≤ listMax (p.map Prod.snd)}

/-- The open interior of the axis-aligned rectangle spanned by a
polygon's vertices. -/
def interiorOf (p : List (ℚ × ℚ)) : Set (ℚ × ℚ) :=
  {z | listMin (p.map Prod.fst) < z.1 ∧ z.1 < listMax (p.map Prod.fst) ∧
       listMin (p.map Prod.snd) < z.2 ∧ z.2 < listMax (p.map Prod.snd)}

/-- Twice the signed (shoelace) area of a closed polygon given by its
vertex list; positive exactly for counter-clockwise winding. -/
def shoelace (p : List (ℚ × ℚ)) : ℚ :=
  ((p.zip (p.tail ++ [p.headI])).map
    (fun e => e.1.1 * e.2.2 - e.2.1 * e.1.2)).sum

/-- Width of a polygon: extent of its vertices along the x-axis. -/
def polyWidth (p : List (ℚ × ℚ)) : ℚ :=
  listMax (p.map Prod.fst) - listMin (p.map Prod.fst)

/-- Height of a polygon: extent of its vertices along the y-axis. -/
def polyHeight (p : List (ℚ × ℚ)) : ℚ :=
  listMax (p.map Prod.snd) - listMin (p.map Prod.snd)

/-- The computable `Rat.ceil` agrees with the mathematical `⌈⌉`. -/
theorem ratCeil_eq_intCeil (q : ℚ) : q.ceil = ⌈q⌉ := by
  unfold Rat.ceil
  split
  · next h =>
    have hq : (q.num : ℚ) = q := (Rat.den_eq_one_iff q).mp h
    conv_rhs => rw [← hq]
    rw [Int.ceil_intCast]
  · next h =>
    have hne : (⌊q⌋ : ℚ) ≠ q := by
      intro heq
      exact h (by rw [← heq]; exact Rat.den_intCast ⌊q⌋)
    have hlt : (⌊q⌋ : ℚ) < q := lt_of_le_of_ne (Int.floor_le q) hne
    have hub : q < (⌊q⌋ : ℚ) + 1 := Int.lt_floor_add_one q
    symm
    rw [Int.ceil_eq_iff, ← Rat.floor_def]
    constructor
    · push_cast
      linarith
    · push_cast
      linarith

theorem arange_length (start stop step : ℚ) :
    (arange start stop step).length = (⌈(stop - start) / step⌉).toNat := by
  simp [arange, ratCeil_eq_intCeil]

/-- Dropping the last element of a mapped range shortens the range. -/
theorem range_map_dropLast {α : Type} (f : ℕ → α) (n : ℕ) :
    ((List.range n).map f).dropLast = (List.range (n - 1)).map f := by
  cases n with
  | zero => rfl
  | succ m =>
    rw [List.range_succ, List.map_append, List.map_singleton,
      List.dropLast_concat, Nat.succ_sub_one]

theorem arange_dropLast (start stop step : ℚ) :
    (arange start stop step).dropLast =
      (List.range ((arange start stop step).length - 1)).map
        (arangeElem start step) := by
  rw [arange_length, arange, range_map_dropLast, ratCeil_eq_intCeil]

/-- Normal form of a successful run of `create_vector_grid`:
for nonzero `grid_size` the polygon list is the double loop over
the retained (all-but-last) column and row origins. -/
theorem create_vector_grid_ok (xmin ymin xmax ymax w : ℚ) (crs : String)
    (hw : w ≠ 0) :
    create_vector_grid xmin ymin xmax ymax w crs =
      .ok ⟨(List.range ((arange xmin (xmax + w) w).length - 1)).flatMap
            (fun i => (List.range ((arange ymin (ymax + w) w).length - 1)).map
              (fun j => squarePoly (arangeElem xmin w i) (arangeElem ymin w j) w)),
           crs⟩ := by
  simp only [create_vector_grid, if_neg hw]
  rw [arange_dropLast, arange_dropLast, List.flatMap_map]
  simp only [List.map_map, Function.comp_def]

/-- The double loop over `n₁ × n₂` origins emits `n₁ * n₂` polygons. -/
theorem flatMap_map_length {α β γ : Type} (l₁ : List α) (l₂ : List β)
    (g : α → β → γ) :
    (l₁.flatMap (fun x => l₂.map (g x))).length = l₁.length * l₂.length := by
  induction l₁ with
  | nil => simp
  | cons a l ih => simp [ih, Nat.succ_mul, Nat.add_comm]

/-- Cell count of a successful run. -/
theorem create_vector_grid_count (xmin ymin xmax ymax w : ℚ) (crs : String)
    (hw : w ≠ 0) :
    (create_vector_grid xmin ymin xmax ymax w crs).map
        (fun g => g.polygons.length) =
      .ok (((arange xmin (xmax + w) w).length - 1) *
           ((arange ymin (ymax + w) w).length - 1)) := by
  rw [create_vector_grid_ok xmin ymin xmax ymax w crs hw]
  simp only [Except.map]
  rw [flatMap_map_length]
  simp

/-- Values of `np.arange(start, stop, step)` for positive step are exactly
the values `start + i * step` that stop before `stop`. -/
theorem mem_arange (start stop step : ℚ) (hs : 0 < step) (q : ℚ) :
    q ∈ arange start stop step ↔ ∃ i : ℕ, q = start + i * step ∧ q < stop := by
  simp only [arange, List.mem_map, List.mem_range, arangeElem,
    ratCeil_eq_intCeil]
  constructor
  · rintro ⟨i, hi, rfl⟩
    refine ⟨i, rfl, ?_⟩
    have h1 : (i : ℤ) < ⌈(stop - start) / step⌉ := by omega
    have h2 : (i : ℚ) < (stop - start) / step := by
      exact_mod_cast Int.lt_ceil.mp h1
    rw [lt_div_iff hs] at h2
    linarith
  · rintro ⟨i, rfl, hlt⟩
    refine ⟨i, ?_, rfl⟩
    have h2 : (i : ℚ) < (stop - start) / step := by
      rw [lt_div_iff hs]
      linarith
    have h1 : (i : ℤ) < ⌈(stop - start) / step⌉ :=
      Int.lt_ceil.mpr (by exact_mod_cast h2)
    omega

/-- A retained column origin's right edge stays strictly below
`xmax + w`. -/
theorem retained_upper (xmin xmax w : ℚ) (hw : 0 < w) (i : ℕ)
    (hi : i < (arange xmin (xmax + w) w).length - 1) :
    arangeElem xmin w i + w < xmax + w := by
  rw [arange_length] at hi
  have hL : (i : ℤ) + 2 ≤ ⌈(xmax + w - xmin) / w⌉ := by omega
  have h2 : (⌈(xmax + w - xmin) / w⌉ : ℚ) < (xmax + w - xmin) / w + 1 := by
    exact_mod_cast Int.ceil_lt_add_one ((xmax + w - xmin) / w)
  have h3 : ((i : ℚ) + 2) ≤ (⌈(xmax + w - xmin) / w⌉ : ℚ) := by
    exact_mod_cast hL
  have h1 : ((i : ℚ) + 1) < (xmax + w - xmin) / w := by linarith
  have h4 : ((i : ℚ) + 1) * w < (xmax + w - xmin) / w * w :=
    mul_lt_mul_of_pos_right h1 hw
  rw [div_mul_cancel₀ _ (ne_of_gt hw)] at h4
  unfold arangeElem
  linarith

/-- Every arange origin is at least the start value (positive step). -/
theorem arangeElem_ge (start step : ℚ) (hs : 0 ≤ step) (i : ℕ) :
    start ≤ arangeElem start step i := by
  unfold arangeElem
  have : 0 ≤ (i : ℚ) * step := mul_nonneg (Nat.cast_nonneg i) hs
  linarith

/-- With valid bounds and positive step the column list is nonempty. -/
theorem arange_length_pos (xmin xmax w : ℚ) (hw : 0 < w) (hle : xmin ≤ xmax) :
    1 ≤ (arange xmin (xmax + w) w).length := by
  rw [arange_length]
  have ha : (0 : ℚ) < (xmax + w - xmin) / w := by
    apply div_pos _ hw
    linarith
  have := Int.ceil_pos.mpr ha
  omega

/-- An arange over a width-zero interval has exactly one element. -/
theorem arange_self_length (q w : ℚ) (hw : w ≠ 0) :
    (arange q (q + w) w).length = 1 := by
  rw [arange_length]
  have h : (q + w - q) / w = 1 := by
    field_simp
  rw [h, Int.ceil_one]
  rfl

/-- C1: for every bounding box with `xmin ≤ xmax`, `ymin ≤ ymax` and every
`cell_size > 0`, the grid builder succeeds and its cell count equals
`max 0 (len cols - 1) * max 0 (len rows - 1)`, where `cols`/`rows` are the
step-1 origin sequences `xmin, xmin + cell_size, …` stopping before
`xmax + cell_size` (resp. on the y-axis); and every cell is built from an
all-but-the-last origin on each axis. -/
theorem create_vector_grid_cell_count (xmin ymin xmax ymax w : ℚ)
    (crs : String) (hx : xmin ≤ xmax) (hy : ymin ≤ ymax) (hw : 0 < w) :
    ∃ g, create_vector_grid xmin ymin xmax ymax w crs = .ok g ∧
      (g.polygons.length : ℤ) =
        max 0 (((arange xmin (xmax + w) w).length : ℤ) - 1) *
          max 0 (((arange ymin (ymax + w) w).length : ℤ) - 1) ∧
      (∀ q : ℚ, q ∈ arange xmin (xmax + w) w ↔
        ∃ i : ℕ, q = xmin + i * w ∧ q < xmax + w) ∧
      (∀ q : ℚ, q ∈ arange ymin (ymax + w) w ↔
        ∃ i : ℕ, q = ymin + i * w ∧ q < ymax + w) ∧
      ∀ p ∈ g.polygons, ∃ x ∈ (arange xmin (xmax + w) w).dropLast,
        ∃ y ∈ (arange ymin (ymax + w) w).dropLast, p = squarePoly x y w := by
  refine ⟨_, create_vector_grid_ok xmin ymin xmax ymax w crs (ne_of_gt hw),
    ?_, fun q => mem_arange xmin (xmax + w) w hw q,
    fun q => mem_arange ymin (ymax + w) w hw q, ?_⟩
  · have hfact : ∀ n : ℕ, ((n - 1 : ℕ) : ℤ) = max 0 ((n : ℤ) - 1) := by
      intro n
      omega
    show ((((List.range ((arange xmin (xmax + w) w).length - 1)).flatMap
      _).length : ℕ) : ℤ) = _
    rw [flatMap_map_length, List.length_range, List.length_range,
      Nat.cast_mul, hfact, hfact]
  · intro p hp
    simp only [List.mem_flatMap, List.mem_map, List.mem_range] at hp
    obtain ⟨i, hi, j, hj, rfl⟩ := hp
    refine ⟨arangeElem xmin w i, ?_, arangeElem ymin w j, ?_, rfl⟩
    · rw [arange_dropLast]
      exact List.mem_map.mpr ⟨i, List.mem_range.mpr hi, rfl⟩
    · rw [arange_dropLast]
      exact List.mem_map.mpr ⟨j, List.mem_range.mpr hj, rfl⟩

/-- Witness for C1 at `(0, 0, 10, 10, 5)`. -/
theorem create_vector_grid_cell_count_witness :
    (0 : ℚ) ≤ 10 ∧ (0 : ℚ) ≤ 10 ∧ (0 : ℚ) < 5 ∧
    ∃ g, create_vector_grid 0 0 10 10 5 "X" = .ok g ∧
      (g.polygons.length : ℤ) =
        max 0 (((arange 0 (10 + 5) 5).length : ℤ) - 1) *
          max 0 (((arange 0 (10 + 5) 5).length : ℤ) - 1) ∧
      (∀ q : ℚ, q ∈ arange 0 (10 + 5) 5 ↔
        ∃ i : ℕ, q = 0 + i * 5 ∧ q < 10 + 5) ∧
      (∀ q : ℚ, q ∈ arange 0 (10 + 5) 5 ↔
        ∃ i : ℕ, q = 0 + i * 5 ∧ q < 10 + 5) ∧
      ∀ p ∈ g.polygons, ∃ x ∈ (arange 0 (10 + 5) 5).dropLast,
        ∃ y ∈ (arange 0 (10 + 5) 5).dropLast, p = squarePoly x y 5 :=
  ⟨by decide, by decide, by decide,
    create_vector_grid_cell_count 0 0 10 10 5 "X" (by decide) (by decide)
      (by decide)⟩

/-- C10: for a degenerate bounding box (`xmin = xmax` or `ymin = ymax`) and
any `cell_size > 0`, the grid builder returns an empty grid without
raising; the origin sequence on the degenerate axis has exactly one
value, so dropping the last origin leaves no retained origin. -/
theorem create_vector_grid_degenerate (xmin ymin xmax ymax w : ℚ)
    (crs : String) (hw : 0 < w) (hdeg : xmin = xmax ∨ ymin = ymax) :
    create_vector_grid xmin ymin xmax ymax w crs = .ok ⟨[], crs⟩ ∧
    (xmin = xmax → (arange xmin (xmax + w) w).length = 1 ∧
      (arange xmin (xmax + w) w).dropLast = []) ∧
    (ymin = ymax → (arange ymin (ymax + w) w).length = 1 ∧
      (arange ymin (ymax + w) w).dropLast = []) := by
  have hlen : ∀ q : ℚ, (arange q (q + w) w).length = 1 ∧
      (arange q (q + w) w).dropLast = [] := by
    intro q
    have h1 := arange_self_length q w (ne_of_gt hw)
    refine ⟨h1, ?_⟩
    rw [arange_dropLast, h1]
    rfl
  refine ⟨?_, fun h => h ▸ hlen xmin, fun h => h ▸ hlen ymin⟩
  rw [create_vector_grid_ok xmin ymin xmax ymax w crs (ne_of_gt hw)]
  rcases hdeg with h | h
  · rw [← h, (hlen xmin).1]
    rfl
  · rw [← h, (hlen ymin).1]
    simp

/-- Witness for C10 at `(0, 0, 0, 10, 5)`. -/
theorem create_vector_grid_degenerate_witness :
    (0 : ℚ) < 5 ∧ ((0 : ℚ) = 0 ∨ (0 : ℚ) = 10) ∧
    (create_vector_grid 0 0 0 10 5 "X" = .ok ⟨[], "X"⟩ ∧
      ((0 : ℚ) = 0 → (arange 0 (0 + 5) 5).length = 1 ∧
        (arange 0 (0 + 5) 5).dropLast = []) ∧
      ((0 : ℚ) = 10 → (arange 0 (10 + 5) 5).length = 1 ∧
        (arange 0 (10 + 5) 5).dropLast = [])) :=
  ⟨by decide, Or.inl rfl,
    create_vector_grid_degenerate 0 0 0 10 5 "X" (by decide) (Or.inl rfl)⟩

/-- C2 counterexample: at `(0, 0, 10, 10, 5)` the builder returns 4 cells
(`cols[:-1] = [0, 5]`, not `[0]`), refuting the claimed single cell. -/
theorem create_vector_grid_5_not_one_cell :
    (create_vector_grid 0 0 10 10 5 "X").map (fun g => g.polygons.length) =
      .ok 4 ∧
    (create_vector_grid 0 0 10 10 5 "X").map (fun g => g.polygons.length) ≠
      .ok 1 := by
  have h : (create_vector_grid 0 0 10 10 5 "X").map
      (fun g => g.polygons.length) = .ok 4 := by
    with_unfolding_all rfl
  refine ⟨h, ?_⟩
  rw [h]
  intro hc
  exact absurd (Except.ok.inj hc) (by decide)

/-- C2 amended: at `(0, 0, 10, 10, 5)` the builder returns exactly four
cells, from the retained origins `[0, 5] × [0, 5]`; the cell at origin
`(0, 0)` has corners `(0,0), (5,0), (5,5), (0,5)`. -/
theorem create_vector_grid_5_four_cells :
    create_vector_grid 0 0 10 10 5 "X" =
      .ok ⟨[squarePoly 0 0 5, squarePoly 0 5 5,
            squarePoly 5 0 5, squarePoly 5 5 5], "X"⟩ ∧
    squarePoly 0 0 5 = [(0, 0), (5, 0), (5, 5), (0, 5)] := by
  constructor
  · with_unfolding_all rfl
  · with_unfolding_all rfl

/-- C3 counterexample: at `(0, 0, 10, 10, 4)` the builder returns 9 cells
(`cols[:-1] = [0, 4, 8]`, not `[0, 4]`), refuting the claimed 4 cells. -/
theorem create_vector_grid_4_not_four_cells :
    (create_vector_grid 0 0 10 10 4 "X").map (fun g => g.polygons.length) =
      .ok 9 ∧
    (create_vector_grid 0 0 10 10 4 "X").map (fun g => g.polygons.length) ≠
      .ok 4 := by
  have h : (create_vector_grid 0 0 10 10 4 "X").map
      (fun g => g.polygons.length) = .ok 9 := by
    with_unfolding_all rfl
  refine ⟨h, ?_⟩
  rw [h]
  intro hc
  exact absurd (Except.ok.inj hc) (by decide)

/-- C3 amended: at `(0, 0, 10, 10, 4)` the builder returns 9 cells from
the retained origins `[0, 4, 8] × [0, 4, 8]`, and the highest cell covers
up to `x = 12` and `y = 12` (over-covering the box edge at 10 by 2). -/
theorem create_vector_grid_4_nine_cells :
    (create_vector_grid 0 0 10 10 4 "X").map
        (fun g => g.polygons.map (fun p => p.headI)) =
      .ok [(0, 0), (0, 4), (0, 8), (4, 0), (4, 4), (4, 8),
           (8, 0), (8, 4), (8, 8)] ∧
    (create_vector_grid 0 0 10 10 4 "X").map (fun g => g.polygons.length) =
      .ok 9 ∧
    (create_vector_grid 0 0 10 10 4 "X").map
        (fun g => listMax ((g.polygons.getLastD []).map Prod.fst)) =
      .ok 12 ∧
    (create_vector_grid 0 0 10 10 4 "X").map
        (fun g => listMax ((g.polygons.getLastD []).map Prod.snd)) =
      .ok 12 := by
  refine ⟨?_, ?_, ?_, ?_⟩ <;> with_unfolding_all rfl

/-- C4 counterexample: at the spec's own test input `(5, 5, 1, 1, 2)`
(`xmin > xmax`), the builder silently succeeds with an empty grid instead
of failing. -/
theorem create_vector_grid_inverted_bounds_silent :
    create_vector_grid 5 5 1 1 2 "X" = .ok ⟨[], "X"⟩ := by
  with_unfolding_all rfl

/-- The first slot of a short list is everything `dropLast` keeps. -/
theorem dropLast_eq_nil_of_length_le_one {α : Type} :
    ∀ {l : List α}, l.length ≤ 1 → l.dropLast = []
  | [], _ => rfl
  | [_], _ => rfl
  | _ :: _ :: t, h => by
    simp only [List.length_cons] at h
    omega

/-- With an inverted x-axis (`xmax < xmin`) and positive step, the column
list has at most one element. -/
theorem arange_length_le_one_of_lt (xmin xmax w : ℚ) (hw : 0 < w)
    (h : xmax < xmin) : (arange xmin (xmax + w) w).length ≤ 1 := by
  rw [arange_length]
  have hq : (xmax + w - xmin) / w ≤ 1 := by
    rw [div_le_one hw]
    linarith
  have hc : ⌈(xmax + w - xmin) / w⌉ ≤ 1 :=
    Int.ceil_le.mpr (by exact_mod_cast hq)
  omega

/-- C4 amended: for every input with `xmin > xmax` or `ymin > ymax` and
`cell_size > 0`, the builder raises no error and silently returns an
empty grid with zero cells. -/
theorem create_vector_grid_invalid_bounds_empty (xmin ymin xmax ymax w : ℚ)
    (crs : String) (hw : 0 < w) (hbad : xmax < xmin ∨ ymax < ymin) :
    create_vector_grid xmin ymin xmax ymax w crs = .ok ⟨[], crs⟩ := by
  rw [create_vector_grid_ok xmin ymin xmax ymax w crs (ne_of_gt hw)]
  rcases hbad with h | h
  · have h1 := arange_length_le_one_of_lt xmin xmax w hw h
    have h2 : (arange xmin (xmax + w) w).length - 1 = 0 := by omega
    rw [h2]
    rfl
  · have h1 := arange_length_le_one_of_lt ymin ymax w hw h
    have h2 : (arange ymin (ymax + w) w).length - 1 = 0 := by omega
    rw [h2]
    simp

/-- Witness for the amended C4 at the spec's input `(5, 5, 1, 1, 2)`. -/
theorem create_vector_grid_invalid_bounds_empty_witness :
    (0 : ℚ) < 2 ∧ ((1 : ℚ) < 5 ∨ (1 : ℚ) < 5) ∧
    create_vector_grid 5 5 1 1 2 "X" = .ok ⟨[], "X"⟩ :=
  ⟨by decide, Or.inl (by decide),
    create_vector_grid_invalid_bounds_empty 5 5 1 1 2 "X" (by decide)
      (Or.inl (by decide))⟩

/-- C5 counterexample: at the spec's own test inputs, `cell_size = 0`
raises numpy's `ZeroDivisionError` (not an `InvalidCellSizeError`), and
`cell_size = -1` silently returns an empty grid rather than failing. -/
theorem create_vector_grid_cell_size_not_validated :
    create_vector_grid 0 0 10 10 0 "X" =
      .error "ZeroDivisionError: division by zero" ∧
    create_vector_grid 0 0 10 10 (-1) "X" = .ok ⟨[], "X"⟩ := by
  constructor
  · with_unfolding_all rfl
  · with_unfolding_all rfl

/-- C5 amended: with valid bounds, `cell_size = 0` fails with numpy's
`ZeroDivisionError` (from the arange step), and any `cell_size < 0`
silently returns an empty grid; no `InvalidCellSizeError` exists. -/
theorem create_vector_grid_nonpositive_cell_size (xmin ymin xmax ymax w : ℚ)
    (crs : String) (hx : xmin ≤ xmax) (hy : ymin ≤ ymax) (hw : w < 0) :
    create_vector_grid xmin ymin xmax ymax 0 crs =
      .error "ZeroDivisionError: division by zero" ∧
    create_vector_grid xmin ymin xmax ymax w crs = .ok ⟨[], crs⟩ := by
  constructor
  · rw [create_vector_grid, if_pos rfl]
  · rw [create_vector_grid_ok xmin ymin xmax ymax w crs (ne_of_lt hw)]
    have h1 : (arange xmin (xmax + w) w).length ≤ 1 := by
      rw [arange_length]
      have hq : (xmax + w - xmin) / w ≤ 1 := by
        rw [div_le_iff_of_neg hw]
        linarith
      have hc : ⌈(xmax + w - xmin) / w⌉ ≤ 1 :=
        Int.ceil_le.mpr (by exact_mod_cast hq)
      omega
    have h2 : (arange xmin (xmax + w) w).length - 1 = 0 := by omega
    rw [h2]
    rfl

/-- Witness for the amended C5 at `(0, 0, 10, 10)` with `w = -1`. -/
theorem create_vector_grid_nonpositive_cell_size_witness :
    (0 : ℚ) ≤ 10 ∧ (0 : ℚ) ≤ 10 ∧ (-1 : ℚ) < 0 ∧
    (create_vector_grid 0 0 10 10 0 "X" =
        .error "ZeroDivisionError: division by zero" ∧
      create_vector_grid 0 0 10 10 (-1) "X" = .ok ⟨[], "X"⟩) :=
  ⟨by decide, by decide, by decide,
    create_vector_grid_nonpositive_cell_size 0 0 10 10 (-1) "X" (by decide)
      (by decide) (by decide)⟩

/-- C9 counterexample: at `(0, 0, 10, 10)` with `cell_size = 10⁻⁹` the
builder does not fail: it returns a grid of `10²⁰` cells, far beyond a
10000-cell ceiling. -/
theorem create_vector_grid_no_size_limit_refuted :
    (create_vector_grid 0 0 10 10 (1 / 1000000000) "X").map
        (fun g => g.polygons.length) =
      .ok 100000000000000000000 ∧
    10000 < 100000000000000000000 := by
  constructor
  · rw [create_vector_grid_count 0 0 10 10 (1 / 1000000000) "X"
      (by norm_num)]
    have h1 : (arange 0 (10 + 1 / 1000000000) (1 / 1000000000)).length =
        10000000001 := by
      rw [arange_length, ← ratCeil_eq_intCeil]
      with_unfolding_all rfl
    rw [h1]
  · norm_num

/-- C9 amended: the builder imposes no maximum cell count: for every
nonzero `cell_size` it succeeds, returning exactly
`(len cols - 1) * (len rows - 1)` cells however large that product is. -/
theorem create_vector_grid_no_size_limit (xmin ymin xmax ymax w : ℚ)
    (crs : String) (hw : w ≠ 0) :
    ∃ g, create_vector_grid xmin ymin xmax ymax w crs = .ok g ∧
      g.polygons.length = ((arange xmin (xmax + w) w).length - 1) *
        ((arange ymin (ymax + w) w).length - 1) := by
  refine ⟨_, create_vector_grid_ok xmin ymin xmax ymax w crs hw, ?_⟩
  show ((List.range ((arange xmin (xmax + w) w).length - 1)).flatMap
    _).length = _
  rw [flatMap_map_length, List.length_range, List.length_range]

/-- Witness for the amended C9 at `(0, 0, 10, 10, 5)`. -/
theorem create_vector_grid_no_size_limit_witness :
    (5 : ℚ) ≠ 0 ∧
    ∃ g, create_vector_grid 0 0 10 10 5 "X" = .ok g ∧
      g.polygons.length = ((arange 0 (10 + 5) 5).length - 1) *
        ((arange 0 (10 + 5) 5).length - 1) :=
  ⟨by decide, create_vector_grid_no_size_limit 0 0 10 10 5 "X" (by decide)⟩

/-- Pairwise over a double loop: outer elements pairwise related across
their blocks and each block pairwise related internally. -/
theorem flatMap_pairwise {α β : Type} {R : α → α → Prop} {f : β → List α} :
    ∀ {l : List β}, (∀ b ∈ l, (f b).Pairwise R) →
      l.Pairwise (fun b c => ∀ a ∈ f b, ∀ a' ∈ f c, R a a') →
      (l.flatMap f).Pairwise R := by
  intro l
  induction l with
  | nil => intro _ _; exact List.Pairwise.nil
  | cons b t ih =>
    intro h1 h2
    rw [List.pairwise_cons] at h2
    rw [List.flatMap_cons, List.pairwise_append]
    refine ⟨h1 b (List.mem_cons_self b t),
      ih (fun x hx => h1 x (List.mem_cons_of_mem b hx)) h2.2, ?_⟩
    intro a ha a' ha'
    rw [List.mem_flatMap] at ha'
    obtain ⟨c, hc, ha'c⟩ := ha'
    exact h2.1 c hc a ha a' ha'c

theorem listMin_quad (a b : ℚ) (h : a ≤ b) : listMin [a, b, b, a] = a := by
  simp only [listMin, List.headI, List.foldr_cons, List.foldr_nil]
  rw [min_self, min_eq_right h, min_eq_right h, min_self]

theorem listMax_quad (a b : ℚ) (h : a ≤ b) : listMax [a, b, b, a] = b := by
  simp only [listMax, List.headI, List.foldr_cons, List.foldr_nil]
  rw [max_self, max_eq_left h, max_self, max_eq_right h]

theorem listMin_pair (a b : ℚ) (h : a ≤ b) : listMin [a, a, b, b] = a := by
  simp only [listMin, List.headI, List.foldr_cons, List.foldr_nil]
  rw [min_eq_right h, min_eq_right h, min_self, min_self]

theorem listMax_pair (a b : ℚ) (h : a ≤ b) : listMax [a, a, b, b] = b := by
  simp only [listMax, List.headI, List.foldr_cons, List.foldr_nil]
  rw [max_eq_left h, max_self, max_eq_right h, max_eq_right h]

theorem squarePoly_map_fst (x y s : ℚ) :
    (squarePoly x y s).map Prod.fst = [x, x + s, x + s, x] := rfl

theorem squarePoly_map_snd (x y s : ℚ) :
    (squarePoly x y s).map Prod.snd = [y, y, y + s, y + s] := rfl

theorem squarePoly_headI (x y s : ℚ) : (squarePoly x y s).headI = (x, y) := rfl

/-- The rectangle spanned by an emitted cell is the closed square with
side `w` at its origin. -/
theorem rectOf_squarePoly (x y w : ℚ) (hw : 0 ≤ w) :
    rectOf (squarePoly x y w) =
      {z : ℚ × ℚ | x ≤ z.1 ∧ z.1 ≤ x + w ∧ y ≤ z.2 ∧ z.2 ≤ y + w} := by
  unfold rectOf
  rw [squarePoly_map_fst, squarePoly_map_snd,
    listMin_quad x (x + w) (by linarith), listMax_quad x (x + w) (by linarith),
    listMin_pair y (y + w) (by linarith), listMax_pair y (y + w) (by linarith)]

/-- The interior of an emitted cell is the open square with side `w` at
its origin. -/
theorem interiorOf_squarePoly (x y w : ℚ) (hw : 0 ≤ w) :
    interiorOf (squarePoly x y w) =
      {z : ℚ × ℚ | x < z.1 ∧ z.1 < x + w ∧ y < z.2 ∧ z.2 < y + w} := by
  unfold interiorOf
  rw [squarePoly_map_fst, squarePoly_map_snd,
    listMin_quad x (x + w) (by linarith), listMax_quad x (x + w) (by linarith),
    listMin_pair y (y + w) (by linarith), listMax_pair y (y + w) (by linarith)]

/-- Cells whose x-intervals do not meet have disjoint interiors. -/
theorem interior_disjoint_of_x (x1 y1 x2 y2 w : ℚ) (hw : 0 < w)
    (h : x1 + w ≤ x2) :
    interiorOf (squarePoly x1 y1 w) ∩ interiorOf (squarePoly x2 y2 w) = ∅ := by
  rw [interiorOf_squarePoly x1 y1 w hw.le, interiorOf_squarePoly x2 y2 w hw.le]
  apply Set.eq_empty_iff_forall_not_mem.mpr
  intro z hz
  obtain ⟨⟨h1, h2, h3, h4⟩, h5, h6, h7, h8⟩ := hz
  linarith

/-- Cells whose y-intervals do not meet have disjoint interiors. -/
theorem interior_disjoint_of_y (x1 y1 x2 y2 w : ℚ) (hw : 0 < w)
    (h : y1 + w ≤ y2) :
    interiorOf (squarePoly x1 y1 w) ∩ interiorOf (squarePoly x2 y2 w) = ∅ := by
  rw [interiorOf_squarePoly x1 y1 w hw.le, interiorOf_squarePoly x2 y2 w hw.le]
  apply Set.eq_empty_iff_forall_not_mem.mpr
  intro z hz
  obtain ⟨⟨h1, h2, h3, h4⟩, h5, h6, h7, h8⟩ := hz
  linarith

/-- Horizontally adjacent cells share exactly the vertical edge at their
common x-coordinate. -/
theorem rect_inter_adjacent_x (x y w : ℚ) (hw : 0 < w) :
    rectOf (squarePoly x y w) ∩ rectOf (squarePoly (x + w) y w) =
      {z : ℚ × ℚ | z.1 = x + w ∧ y ≤ z.2 ∧ z.2 ≤ y + w} := by
  rw [rectOf_squarePoly x y w hw.le, rectOf_squarePoly (x + w) y w hw.le]
  ext z
  simp only [Set.mem_inter_iff, Set.mem_setOf_eq]
  constructor
  · rintro ⟨⟨h1, h2, h3, h4⟩, ⟨h5, h6, h7, h8⟩⟩
    exact ⟨le_antisymm h2 h5, h3, h4⟩
  · rintro ⟨h1, h2, h3⟩
    exact ⟨⟨by linarith [h1.ge], h1.le, h2, h3⟩,
      ⟨h1.ge, by linarith [h1.le], h2, h3⟩⟩

/-- Vertically adjacent cells share exactly the horizontal edge at their
common y-coordinate. -/
theorem rect_inter_adjacent_y (x y w : ℚ) (hw : 0 < w) :
    rectOf (squarePoly x y w) ∩ rectOf (squarePoly x (y + w) w) =
      {z : ℚ × ℚ | x ≤ z.1 ∧ z.1 ≤ x + w ∧ z.2 = y + w} := by
  rw [rectOf_squarePoly x y w hw.le, rectOf_squarePoly x (y + w) w hw.le]
  ext z
  simp only [Set.mem_inter_iff, Set.mem_setOf_eq]
  constructor
  · rintro ⟨⟨h1, h2, h3, h4⟩, ⟨h5, h6, h7, h8⟩⟩
    exact ⟨h1, h2, le_antisymm h4 h7⟩
  · rintro ⟨h1, h2, h3⟩
    exact ⟨⟨h1, h2, by linarith [h3.ge], h3.le⟩,
      ⟨h1, h2, h3.ge, by linarith [h3.le]⟩⟩

/-- An emitted cell has four distinct vertices when the cell size is
positive. -/
theorem squarePoly_nodup (x y w : ℚ) (hw : 0 < w) :
    (squarePoly x y w).Nodup := by
  have hx1 : x ≠ x + w := ne_of_lt (by linarith)
  have hx2 : x + w ≠ x := ne_of_gt (by linarith)
  have hy1 : y ≠ y + w := ne_of_lt (by linarith)
  have hy2 : y + w ≠ y := ne_of_gt (by linarith)
  simp [squarePoly, Prod.ext_iff, hx1, hx2, hy1, hy2]

/-- Twice the signed area of an emitted cell is `2 w²` (counter-clockwise
when `w > 0`). -/
theorem shoelace_squarePoly (x y w : ℚ) :
    shoelace (squarePoly x y w) = 2 * w ^ 2 := by
  simp only [shoelace, squarePoly, List.tail_cons, List.headI,
    List.cons_append, List.nil_append, List.zip_cons_cons, List.zip_nil_right,
    List.map_cons, List.map_nil, List.sum_cons, List.sum_nil]
  ring

theorem polyWidth_squarePoly (x y w : ℚ) (hw : 0 ≤ w) :
    polyWidth (squarePoly x y w) = w := by
  unfold polyWidth
  rw [squarePoly_map_fst, listMin_quad x (x + w) (by linarith),
    listMax_quad x (x + w) (by linarith)]
  ring

theorem polyHeight_squarePoly (x y w : ℚ) (hw : 0 ≤ w) :
    polyHeight (squarePoly x y w) = w := by
  unfold polyHeight
  rw [squarePoly_map_snd, listMin_pair y (y + w) (by linarith),
    listMax_pair y (y + w) (by linarith)]
  ring

/-- Arange origins grow strictly in the index (positive step). -/
theorem arangeElem_strictMono (start w : ℚ) (hw : 0 < w) {i j : ℕ}
    (h : i < j) : arangeElem start w i < arangeElem start w j := by
  unfold arangeElem
  have hij : (i : ℚ) < j := by exact_mod_cast h
  have := mul_lt_mul_of_pos_right hij hw
  linarith

/-- Distinct arange origins are at least one step apart (positive step). -/
theorem arangeElem_add_le (start w : ℚ) (hw : 0 < w) {i j : ℕ} (h : i < j) :
    arangeElem start w i + w ≤ arangeElem start w j := by
  unfold arangeElem
  have hij : (i : ℚ) + 1 ≤ j := by exact_mod_cast h
  have h1 : ((i : ℚ) + 1) * w ≤ (j : ℚ) * w :=
    mul_le_mul_of_nonneg_right hij hw.le
  have h2 : ((i : ℚ) + 1) * w = (i : ℚ) * w + w := by ring
  linarith

/-- Membership in the double loop emitted by `create_vector_grid`. -/
theorem mem_grid_polys (xmin ymin w : ℚ) (nc nr : ℕ) (p : List (ℚ × ℚ)) :
    p ∈ (List.range nc).flatMap (fun i => (List.range nr).map
      (fun j => squarePoly (arangeElem xmin w i) (arangeElem ymin w j) w)) ↔
    ∃ i, i < nc ∧ ∃ j, j < nr ∧
      p = squarePoly (arangeElem xmin w i) (arangeElem ymin w j) w := by
  simp only [List.mem_flatMap, List.mem_map, List.mem_range]
  constructor
  · rintro ⟨i, hi, j, hj, h⟩
    exact ⟨i, hi, j, hj, h.symm⟩
  · rintro ⟨i, hi, j, hj, h⟩
    exact ⟨i, hi, j, hj, h.symm⟩

/-- C6: for every valid bounding box and positive cell size, every cell
lies within `[xmin, xmax + w) × [ymin, ymax + w)`, no two cells overlap
in area (their interiors are disjoint), and adjacent cells (origins one
step apart on one axis, equal on the other) share exactly an edge. -/
theorem create_vector_grid_tiling (xmin ymin xmax ymax w : ℚ) (crs : String)
    (hx : xmin ≤ xmax) (hy : ymin ≤ ymax) (hw : 0 < w) :
    ∃ g, create_vector_grid xmin ymin xmax ymax w crs = .ok g ∧
      (∀ p ∈ g.polygons, ∀ z ∈ rectOf p,
        xmin ≤ z.1 ∧ z.1 < xmax + w ∧ ymin ≤ z.2 ∧ z.2 < ymax + w) ∧
      g.polygons.Pairwise (fun p q => interiorOf p ∩ interiorOf q = ∅) ∧
      (∀ p ∈ g.polygons, ∀ q ∈ g.polygons,
        q.headI.1 = p.headI.1 + w → q.headI.2 = p.headI.2 →
        rectOf p ∩ rectOf q =
          {z : ℚ × ℚ | z.1 = p.headI.1 + w ∧ p.headI.2 ≤ z.2 ∧
            z.2 ≤ p.headI.2 + w}) ∧
      (∀ p ∈ g.polygons, ∀ q ∈ g.polygons,
        q.headI.1 = p.headI.1 → q.headI.2 = p.headI.2 + w →
        rectOf p ∩ rectOf q =
          {z : ℚ × ℚ | p.headI.1 ≤ z.1 ∧ z.1 ≤ p.headI.1 + w ∧
            z.2 = p.headI.2 + w}) := by
  refine ⟨_, create_vector_grid_ok xmin ymin xmax ymax w crs (ne_of_gt hw),
    ?_, ?_, ?_, ?_⟩
  · intro p hp z hz
    rw [mem_grid_polys] at hp
    obtain ⟨i, hi, j, hj, rfl⟩ := hp
    rw [rectOf_squarePoly _ _ _ hw.le] at hz
    obtain ⟨h1, h2, h3, h4⟩ := hz
    have e1 := arangeElem_ge xmin w hw.le i
    have e2 := retained_upper xmin xmax w hw i hi
    have e3 := arangeElem_ge ymin w hw.le j
    have e4 := retained_upper ymin ymax w hw j hj
    exact ⟨le_trans e1 h1, lt_of_le_of_lt h2 e2, le_trans e3 h3,
      lt_of_le_of_lt h4 e4⟩
  · apply flatMap_pairwise
    · intro i hi
      rw [List.pairwise_map]
      refine List.Pairwise.imp ?_ (List.pairwise_lt_range _)
      intro j j' hlt
      exact interior_disjoint_of_y _ _ _ _ w hw
        (arangeElem_add_le ymin w hw hlt)
    · refine List.Pairwise.imp ?_ (List.pairwise_lt_range _)
      intro i i' hlt a ha a' ha'
      simp only [List.mem_map, List.mem_range] at ha ha'
      obtain ⟨j, hj, rfl⟩ := ha
      obtain ⟨j', hj', rfl⟩ := ha'
      exact interior_disjoint_of_x _ _ _ _ w hw
        (arangeElem_add_le xmin w hw hlt)
  · intro p hp q hq h1 h2
    rw [mem_grid_polys] at hp hq
    obtain ⟨i, hi, j, hj, rfl⟩ := hp
    obtain ⟨i', hi', j', hj', rfl⟩ := hq
    have hx' : arangeElem xmin w i' = arangeElem xmin w i + w := h1
    have hy' : arangeElem ymin w j' = arangeElem ymin w j := h2
    rw [hx', hy']
    exact rect_inter_adjacent_x (arangeElem xmin w i) (arangeElem ymin w j)
      w hw
  · intro p hp q hq h1 h2
    rw [mem_grid_polys] at hp hq
    obtain ⟨i, hi, j, hj, rfl⟩ := hp
    obtain ⟨i', hi', j', hj', rfl⟩ := hq
    have hx' : arangeElem xmin w i' = arangeElem xmin w i := h1
    have hy' : arangeElem ymin w j' = arangeElem ymin w j + w := h2
    rw [hx', hy']
    exact rect_inter_adjacent_y (arangeElem xmin w i) (arangeElem ymin w j)
      w hw

/-- Witness for C6 at `(0, 0, 10, 10, 5)`. -/
theorem create_vector_grid_tiling_witness :
    (0 : ℚ) ≤ 10 ∧ (0 : ℚ) ≤ 10 ∧ (0 : ℚ) < 5 ∧
    ∃ g, create_vector_grid 0 0 10 10 5 "X" = .ok g ∧
      (∀ p ∈ g.polygons, ∀ z ∈ rectOf p,
        (0 : ℚ) ≤ z.1 ∧ z.1 < 10 + 5 ∧ (0 : ℚ) ≤ z.2 ∧ z.2 < 10 + 5) ∧
      g.polygons.Pairwise (fun p q => interiorOf p ∩ interiorOf q = ∅) ∧
      (∀ p ∈ g.polygons, ∀ q ∈ g.polygons,
        q.headI.1 = p.headI.1 + 5 → q.headI.2 = p.headI.2 →
        rectOf p ∩ rectOf q =
          {z : ℚ × ℚ | z.1 = p.headI.1 + 5 ∧ p.headI.2 ≤ z.2 ∧
            z.2 ≤ p.headI.2 + 5}) ∧
      (∀ p ∈ g.polygons, ∀ q ∈ g.polygons,
        q.headI.1 = p.headI.1 → q.headI.2 = p.headI.2 + 5 →
        rectOf p ∩ rectOf q =
          {z : ℚ × ℚ | p.headI.1 ≤ z.1 ∧ z.1 ≤ p.headI.1 + 5 ∧
            z.2 = p.headI.2 + 5}) :=
  ⟨by decide, by decide, by decide,
    create_vector_grid_tiling 0 0 10 10 5 "X" (by decide) (by decide)
      (by decide)⟩

/-- C7: the cells are enumerated with columns in ascending x order as the
outer loop and rows in ascending y order as the inner loop: along the
polygon list, origins strictly increase in x, or keep x and strictly
increase in y. -/
theorem create_vector_grid_order (xmin ymin xmax ymax w : ℚ) (crs : String)
    (hw : 0 < w) :
    ∃ g, create_vector_grid xmin ymin xmax ymax w crs = .ok g ∧
      (g.polygons.map (fun p => p.headI)).Pairwise
        (fun a b => a.1 < b.1 ∨ (a.1 = b.1 ∧ a.2 < b.2)) := by
  refine ⟨_, create_vector_grid_ok xmin ymin xmax ymax w crs (ne_of_gt hw),
    ?_⟩
  rw [List.map_flatMap]
  apply flatMap_pairwise
  · intro i hi
    rw [List.map_map, List.pairwise_map]
    refine List.Pairwise.imp ?_ (List.pairwise_lt_range _)
    intro j j' hlt
    exact Or.inr ⟨rfl, arangeElem_strictMono ymin w hw hlt⟩
  · refine List.Pairwise.imp ?_ (List.pairwise_lt_range _)
    intro i i' hlt a ha a' ha'
    simp only [List.map_map, List.mem_map, List.mem_range,
      Function.comp] at ha ha'
    obtain ⟨j, hj, rfl⟩ := ha
    obtain ⟨j', hj', rfl⟩ := ha'
    exact Or.inl (arangeElem_strictMono xmin w hw hlt)

/-- Witness for C7 at `(0, 0, 10, 10, 5)`. -/
theorem create_vector_grid_order_witness :
    (0 : ℚ) < 5 ∧
    ∃ g, create_vector_grid 0 0 10 10 5 "X" = .ok g ∧
      (g.polygons.map (fun p => p.headI)).Pairwise
        (fun a b => a.1 < b.1 ∨ (a.1 = b.1 ∧ a.2 < b.2)) :=
  ⟨by decide, create_vector_grid_order 0 0 10 10 5 "X" (by decide)⟩

/-- C8: each retained origin pair `(x, y)` contributes the square polygon
with corners `(x, y), (x+w, y), (x+w, y+w), (x, y+w)`; every emitted cell
has 4 distinct vertices, counter-clockwise winding (positive shoelace
area), and width and height exactly the cell size. -/
theorem create_vector_grid_cell_shape (xmin ymin xmax ymax w : ℚ)
    (crs : String) (hw : 0 < w) :
    ∃ g, create_vector_grid xmin ymin xmax ymax w crs = .ok g ∧
      (∀ x ∈ (arange xmin (xmax + w) w).dropLast,
        ∀ y ∈ (arange ymin (ymax + w) w).dropLast,
          squarePoly x y w ∈ g.polygons ∧
          squarePoly x y w = [(x, y), (x + w, y), (x + w, y + w),
            (x, y + w)]) ∧
      ∀ p ∈ g.polygons, p.Nodup ∧ 0 < shoelace p ∧
        polyWidth p = w ∧ polyHeight p = w := by
  refine ⟨_, create_vector_grid_ok xmin ymin xmax ymax w crs (ne_of_gt hw),
    ?_, ?_⟩
  · intro x hx y hy
    rw [arange_dropLast] at hx hy
    simp only [List.mem_map, List.mem_range] at hx hy
    obtain ⟨i, hi, rfl⟩ := hx
    obtain ⟨j, hj, rfl⟩ := hy
    refine ⟨?_, rfl⟩
    rw [mem_grid_polys]
    exact ⟨i, hi, j, hj, rfl⟩
  · intro p hp
    rw [mem_grid_polys] at hp
    obtain ⟨i, hi, j, hj, rfl⟩ := hp
    refine ⟨squarePoly_nodup _ _ _ hw, ?_,
      polyWidth_squarePoly _ _ _ hw.le, polyHeight_squarePoly _ _ _ hw.le⟩
    rw [shoelace_squarePoly]
    positivity

/-- Witness for C8 at `(0, 0, 10, 10, 5)`. -/
theorem create_vector_grid_cell_shape_witness :
    (0 : ℚ) < 5 ∧
    ∃ g, create_vector_grid 0 0 10 10 5 "X" = .ok g ∧
      (∀ x ∈ (arange 0 (10 + 5) 5).dropLast,
        ∀ y ∈ (arange 0 (10 + 5) 5).dropLast,
          squarePoly x y 5 ∈ g.polygons ∧
          squarePoly x y 5 = [(x, y), (x + 5, y), (x + 5, y + 5),
            (x, y + 5)]) ∧
      ∀ p ∈ g.polygons, p.Nodup ∧ 0 < shoelace p ∧
        polyWidth p = 5 ∧ polyHeight p = 5 :=
  ⟨by decide, create_vector_grid_cell_shape 0 0 10 10 5 "X" (by decide)⟩

